import Mathlib

/-!
Shallow embedding of `setup_conan.py` (ConanConfig repository).

Python dictionaries are modelled as association lists (`Dict`) that keep
insertion order and hold at most one binding per key, matching CPython's
dict semantics for the operations the script uses: `get`, item assignment
(`d[k] = v`, which updates in place or appends) and `update` (a sequence of
item assignments).  The filesystem under the profiles directory is a list
of `(file name, content)` pairs.  The in-place mutation of the module-level
`HOST_SETTINGS` table performed by the Visual Studio runtime special case
(line `entry_settings['compiler.runtime'] = runtime_value` writes through
an alias into the table) is modelled by threading the three entry lists
through the combination loop as explicit state (`RunState`, `stepCombo`).
-/

namespace SetupConan

/-- Association-list model of a Python `dict` from `str` to `str`. -/
abbrev Dict := List (String × String)

/-- `d.get(k)`: value of the first (unique) binding of `k`, if any. -/
def dget (d : Dict) (k : String) : Option String :=
  (d.find? (fun kv => kv.1 == k)).map (fun kv => kv.2)

/-- `d.get(k, dflt)`: lookup with a default. -/
def getDefault (d : Dict) (k dflt : String) : String :=
  (dget d k).getD dflt

/-- `d[k] = v`: update the binding in place (keeping its position) or append. -/
def dsetOne : Dict → String → String → Dict
  | [], k, v => [(k, v)]
  | kv :: rest, k, v =>
    if kv.1 == k then (k, v) :: rest else kv :: dsetOne rest k v

/-- `d.update(src)`: item assignments of all of `src`'s pairs, in order. -/
def dupdate (d : Dict) (src : Dict) : Dict :=
  src.foldl (fun acc kv => dsetOne acc kv.1 kv.2) d

/-- "Later overrides earlier": keep `a`'s value when present, else `b`'s. -/
def oor (a b : Option String) : Option String :=
  match a with
  | some v => some v
  | none => b

/-- One element of an `os_arch`, `compilers` or `BUILD_TYPES` list: a name
plus a settings dict and (possibly absent, i.e. empty) env dict. -/
structure Entry where
  name : String
  settings : Dict
  env : Dict
deriving Repr, DecidableEq

/-- The value of one platform key of `HOST_SETTINGS`. -/
structure Platform where
  os_arch : List Entry
  compilers : List Entry
deriving Repr, DecidableEq

def REMOTE : String := "artyjay"

def REMOTE_URL : String := "https://artyjay.jfrog.io/artifactory/api/conan/conan-local"

/-- The single `os_arch` entry of the `'Linux'` platform. -/
def linuxOsArch : Entry :=
  { name := "linux-x86_64",
    settings := [("os", "Linux"), ("os_build", "Linux"),
                 ("arch", "x86_64"), ("arch_build", "x86_64")],
    env := [] }

/-- The `'clang'` compiler entry of the `'Linux'` platform. -/
def clangEntry : Entry :=
  { name := "clang",
    settings := [("compiler", "clang"), ("compiler.version", "11"),
                 ("compiler.libcxx", "libstdc++11")],
    env := [("CC", "clang-11"), ("CXX", "clang-11"), ("AR", "llvm-ar-11"),
            ("NM", "llvm-nm-11"), ("LD", "llvm-link-11"),
            ("STRIP", "llvm-strip-11")] }

/-- The `'gcc'` compiler entry of the `'Linux'` platform. -/
def gccEntry : Entry :=
  { name := "gcc",
    settings := [("compiler", "gcc"), ("compiler.version", "10"),
                 ("compiler.libcxx", "libstdc++11")],
    env := [("CC", "gcc-10"), ("CXX", "g++-10"), ("AR", "gcc-ar-10"),
            ("NM", "gcc-nm-10")] }

/-- The single `os_arch` entry of the `'Windows'` platform. -/
def winOsArch : Entry :=
  { name := "windows-x86_64",
    settings := [("os", "Windows"), ("os_build", "Windows"),
                 ("arch", "x86_64"), ("arch_build", "x86_64")],
    env := [] }

/-- The `'msvc_mt'` compiler entry of the `'Windows'` platform. -/
def msvcEntry : Entry :=
  { name := "msvc_mt",
    settings := [("compiler", "Visual Studio"), ("compiler.version", "16"),
                 ("compiler.runtime", "MT")],
    env := [] }

/-- The `'Linux'` value of `HOST_SETTINGS`. -/
def linuxPlatform : Platform :=
  { os_arch := [linuxOsArch], compilers := [clangEntry, gccEntry] }

/-- The `'Windows'` value of `HOST_SETTINGS`. -/
def winPlatform : Platform :=
  { os_arch := [winOsArch], compilers := [msvcEntry] }

/-- The module-level `HOST_SETTINGS` table (insertion order kept). -/
def HOST_SETTINGS : List (String × Platform) :=
  [("Linux", linuxPlatform), ("Windows", winPlatform)]

/-- The `'debug'` element of `BUILD_TYPES`. -/
def debugBT : Entry :=
  { name := "debug", settings := [("build_type", "Debug")], env := [] }

/-- The `'release'` element of `BUILD_TYPES`. -/
def releaseBT : Entry :=
  { name := "release", settings := [("build_type", "Release")], env := [] }

/-- The module-level `BUILD_TYPES` list. -/
def BUILD_TYPES : List Entry :=
  [debugBT, releaseBT]

/-- The `runtime_value` computed by the Visual Studio special case:
`'MT'` or `'MD'` by exact compiler-variant name, plus `'d'` for debug. -/
def vsRuntimeValue (compiler_name build_name : String) : String :=
  (if compiler_name == "msvc_mt" then "MT" else "MD") ++
    (if build_name == "debug" then "d" else "")

/-- The body of the `if entry_settings.get('compiler', '') == 'Visual Studio'`
special case applied to one entry's settings dict (lines 171-175). -/
def applyVSRule (compiler_name build_name : String) (entry_settings : Dict) : Dict :=
  if getDefault entry_settings "compiler" "" == "Visual Studio" then
    dsetOne entry_settings "compiler.runtime" (vsRuntimeValue compiler_name build_name)
  else
    entry_settings

/-- `values_string`: newline-joined `key=value` lines in dict order. -/
def values_string (d : Dict) : String :=
  String.intercalate "\n" (d.map (fun kv => kv.1 ++ "=" ++ kv.2))

/-- `CONAN_PROFILE_TEMPLATE.format(settings=..., env=...)`. -/
def CONAN_PROFILE_TEMPLATE (settings env : String) : String :=
  "[settings]\n" ++ settings ++ "\n[options]\n[build_requires]\n[env]\n" ++
    env ++ "\n"

/-- The inner `for entry in profile` loop for one combination: merge the
three (special-case-adjusted) settings dicts and the three env dicts into
initially empty accumulators, in the order os/arch, compiler, build type. -/
def mergeProfile (osa comp bt : Entry) : Dict × Dict :=
  [osa, comp, bt].foldl
    (fun acc e =>
      (dupdate acc.1 (applyVSRule comp.name bt.name e.settings),
       dupdate acc.2 e.env))
    ([], [])

/-- `profile_name = f'{os_arch_name}-{compiler_name}-{build_name}'`. -/
def profileName (osa comp bt : Entry) : String :=
  osa.name ++ "-" ++ comp.name ++ "-" ++ bt.name

/-- The rendered profile text for one combination. -/
def profileContent (osa comp bt : Entry) : String :=
  CONAN_PROFILE_TEMPLATE (values_string (mergeProfile osa comp bt).1)
    (values_string (mergeProfile osa comp bt).2)

/-- Files under the profiles directory: `(file name, content)` pairs. -/
abbrev FS := List (String × String)

/-- `os.path.exists` within the profiles directory. -/
def fsExists (fs : FS) (p : String) : Bool :=
  fs.any (fun e => e.1 == p)

/-- Content of a file if present. -/
def fsLookup (fs : FS) (p : String) : Option String :=
  (fs.find? (fun e => e.1 == p)).map (fun e => e.2)

/-- Mutable state of the combination loop: the three entry lists (the
module-level table, mutated through aliases by the special case) and the
profiles directory. -/
structure RunState where
  osArch : List Entry
  comps : List Entry
  builds : List Entry
  fs : FS
deriving Repr, DecidableEq

def initState (p : Platform) (fs0 : FS) : RunState :=
  { osArch := p.os_arch, comps := p.compilers, builds := BUILD_TYPES, fs := fs0 }

/-- The three entries of combination `(i, j, k)` in the current state. -/
def comboData (s : RunState) (i j k : Nat) : Option (Entry × Entry × Entry) :=
  match s.osArch[i]?, s.comps[j]?, s.builds[k]? with
  | some a, some c, some b => some (a, c, b)
  | _, _, _ => none

/-- The `(profile_name, rendered text)` the loop body computes for
combination `(i, j, k)` in the current state. -/
def comboOutput (s : RunState) (i j k : Nat) : Option (String × String) :=
  match comboData s i j k with
  | none => none
  | some (osa, comp, bt) => some (profileName osa comp bt, profileContent osa comp bt)

/-- One iteration of the `for profile in itertools.product(...)` loop:
the special case writes `compiler.runtime` back through the alias into the
table (modelled by `List.set`), the merged profile is rendered, and the
file is written only when absent. -/
def stepCombo (s : RunState) (i j k : Nat) : RunState :=
  match comboData s i j k with
  | none => s
  | some (osa, comp, bt) =>
    let cn := comp.name
    let bn := bt.name
    let osArch' := s.osArch.set i { osa with settings := applyVSRule cn bn osa.settings }
    let comps' := s.comps.set j { comp with settings := applyVSRule cn bn comp.settings }
    let builds' := s.builds.set k { bt with settings := applyVSRule cn bn bt.settings }
    let nm := profileName osa comp bt
    let content := profileContent osa comp bt
    { osArch := osArch', comps := comps', builds := builds',
      fs := if fsExists s.fs nm then s.fs else s.fs ++ [(nm, content)] }

/-- Run the loop body over a list of index combinations, in order. -/
def runCombos (s : RunState) : List (Nat × Nat × Nat) → RunState
  | [] => s
  | c :: rest => runCombos (stepCombo s c.1 c.2.1 c.2.2) rest

/-- The index combinations `itertools.product` yields, rightmost fastest. -/
def allCombos (p : Platform) : List (Nat × Nat × Nat) :=
  (List.range p.os_arch.length).flatMap (fun i =>
    (List.range p.compilers.length).flatMap (fun j =>
      (List.range BUILD_TYPES.length).map (fun k => (i, j, k))))

/-- The whole profile-generation loop for one platform. -/
def runPlatform (p : Platform) (fs0 : FS) : RunState :=
  runCombos (initState p fs0) (allCombos p)

/-- The entry triples of `itertools.product(os_arch_types, compiler_types,
BUILD_TYPES)` read off the static table. -/
def comboList (p : Platform) : List (Entry × Entry × Entry) :=
  p.os_arch.flatMap (fun a =>
    p.compilers.flatMap (fun c =>
      BUILD_TYPES.map (fun b => (a, c, b))))

/-- A registered Conan remote as seen by `conan.remote_list()`. -/
structure Remote where
  name : String
  url : String
deriving Repr, DecidableEq

/-- State-changing Conan API calls the script can make. -/
inductive ConanCall where
  | remoteAdd (name url : String)
deriving Repr, DecidableEq

/-- Lines 143-150: filter the remote list for `REMOTE`; call
`conan.remote_add(REMOTE, REMOTE_URL)` exactly when nothing matched.
Returns the list of state-changing calls made. -/
def registerRemoteCalls (remotes : List Remote) : List ConanCall :=
  let found := remotes.filter (fun x => x.name == REMOTE)
  if found.length == 0 then [ConanCall.remoteAdd REMOTE REMOTE_URL] else []

/-- Process-visible state touched by `Main`. -/
structure SysState where
  profilesDirExists : Bool
  fs : FS
  calls : List ConanCall
deriving Repr, DecidableEq

/-- Result of a run of `Main`: final state, and whether the process exits
cleanly (`ok = false` models an uncaught exception, hence non-zero exit). -/
structure MainOutcome where
  state : SysState
  ok : Bool
deriving Repr, DecidableEq

/-- `HOST_SETTINGS[host_platform]`: `args.platform` is `None` when the flag
is absent (argparse does not enforce it), and neither `None` nor an unknown
name is a key, so both raise `KeyError`. -/
def lookupPlatform (arg : Option String) : Option Platform :=
  arg.bind (fun n => (HOST_SETTINGS.find? (fun pr => pr.1 == n)).map (fun pr => pr.2))

/-- `Main`, in statement order: `os.makedirs(profiles_path, exist_ok=True)`,
then the table lookup (whose failure aborts the run), then remote
registration, then the combination loop. -/
def MainModel (platformArg : Option String) (remotes : List Remote)
    (s0 : SysState) : MainOutcome :=
  let s1 : SysState := { s0 with profilesDirExists := true }
  match lookupPlatform platformArg with
  | none => { state := s1, ok := false }
  | some plat =>
    let s2 : SysState := { s1 with calls := s1.calls ++ registerRemoteCalls remotes }
    let r := runPlatform plat s2.fs
    { state := { s2 with fs := r.fs }, ok := true }

/-! ### Dictionary lemmas -/

theorem dget_nil (k : String) : dget [] k = none := rfl

theorem oor_none_left (b : Option String) : oor none b = b := rfl

theorem oor_some (v : String) (b : Option String) : oor (some v) b = some v := rfl

theorem oor_none_right (a : Option String) : oor a none = a := by
  cases a <;> rfl

theorem dget_cons (kv : String × String) (rest : Dict) (k : String) :
    dget (kv :: rest) k = if kv.1 = k then some kv.2 else dget rest k := by
  by_cases h : kv.1 = k
  · have hb : (kv.1 == k) = true := by simpa using h
    simp [dget, List.find?, hb, h]
  · have hb : (kv.1 == k) = false := by simpa using h
    simp [dget, List.find?, hb, h]

theorem dget_dsetOne (d : Dict) (a v k : String) :
    dget (dsetOne d a v) k = if k = a then some v else dget d k := by
  induction d with
  | nil =>
    by_cases h : k = a
    · simp [dsetOne, dget_cons, h]
    · simp [dsetOne, dget_cons, h, Ne.symm h, dget_nil]
  | cons kv rest ih =>
    by_cases hka : kv.1 = a
    · by_cases hk : k = a
      · simp [dsetOne, hka, dget_cons, hk]
      · simp [dsetOne, hka, dget_cons, hk, Ne.symm hk]
    · by_cases hk : kv.1 = k
      · have hne : ¬k = a := fun h => hka (hk.trans h)
        simp [dsetOne, hka, dget_cons, hk, hne]
      · simp [dsetOne, hka, dget_cons, hk, ih]

theorem dsetOne_dsetOne (d : Dict) (a v v' : String) :
    dsetOne (dsetOne d a v') a v = dsetOne d a v := by
  induction d with
  | nil => simp [dsetOne]
  | cons kv rest ih =>
    by_cases h : kv.1 = a
    · simp [dsetOne, h]
    · simp [dsetOne, h, ih]

theorem dget_eq_none_of_not_mem (src : Dict) (k : String)
    (h : ∀ kv ∈ src, kv.1 ≠ k) : dget src k = none := by
  have hfind : src.find? (fun kv => kv.1 == k) = none :=
    List.find?_eq_none.mpr (fun kv hkv hc => h kv hkv (by simpa using hc))
  simp [dget, hfind]

theorem dget_dupdate (d src : Dict) (k : String)
    (h : (src.map Prod.fst).Nodup) :
    dget (dupdate d src) k = oor (dget src k) (dget d k) := by
  induction src generalizing d with
  | nil => simp [dupdate, dget_nil, oor_none_left]
  | cons x rest ih =>
    simp only [List.map_cons] at h
    have h' := List.nodup_cons.mp h
    have step : dupdate d (x :: rest) = dupdate (dsetOne d x.1 x.2) rest := rfl
    rw [step, ih _ h'.2, dget_cons]
    by_cases hk : x.1 = k
    · have hnone : dget rest k = none := by
        refine dget_eq_none_of_not_mem rest k (fun kv hkv hkv1 => ?_)
        refine h'.1 ?_
        have hx : x.1 = kv.1 := hk.trans hkv1.symm
        rw [hx]
        exact List.mem_map_of_mem Prod.fst hkv
      have hk2 : k = x.1 := hk.symm
      rw [if_pos hk, hnone, dget_dsetOne, if_pos hk2]
      simp [oor_none_left, oor_some]
    · have hk' : ¬k = x.1 := fun hh => hk hh.symm
      rw [if_neg hk, dget_dsetOne, if_neg hk']

/-! ### The Visual Studio special case recomputes, so re-applying it wins -/

theorem getDefault_dsetOne_ne (es : Dict) (a v k dflt : String) (h : ¬k = a) :
    getDefault (dsetOne es a v) k dflt = getDefault es k dflt := by
  simp [getDefault, dget_dsetOne, h]

theorem applyVSRule_applyVSRule (cn bn cnp bnp : String) (es : Dict) :
    applyVSRule cn bn (applyVSRule cnp bnp es) = applyVSRule cn bn es := by
  by_cases h : getDefault es "compiler" "" = "Visual Studio"
  · have hb : (getDefault es "compiler" "" == "Visual Studio") = true := by simpa using h
    have hb2 : (getDefault (dsetOne es "compiler.runtime" (vsRuntimeValue cnp bnp))
        "compiler" "" == "Visual Studio") = true := by
      rw [getDefault_dsetOne_ne es "compiler.runtime" (vsRuntimeValue cnp bnp)
        "compiler" "" (by decide)]
      exact hb
    simp [applyVSRule, hb, hb2, dsetOne_dsetOne]
  · have hb : (getDefault es "compiler" "" == "Visual Studio") = false := by simpa using h
    simp [applyVSRule, hb]

/-! ### Shadow invariant: mutated table entries agree with the originals
once the special case is re-applied -/

/-- `cur` is the original entry `orig` after zero or more in-place
`compiler.runtime` writes: name and env are untouched and the special case
produces the same settings from either. -/
def ShadowEntry (orig cur : Entry) : Prop :=
  cur.name = orig.name ∧ cur.env = orig.env ∧
    ∀ cn bn, applyVSRule cn bn cur.settings = applyVSRule cn bn orig.settings

theorem shadowEntry_refl (e : Entry) : ShadowEntry e e := ⟨rfl, rfl, fun _ _ => rfl⟩

theorem shadowEntry_step (orig cur : Entry) (cn bn : String) (h : ShadowEntry orig cur) :
    ShadowEntry orig { cur with settings := applyVSRule cn bn cur.settings } := by
  refine ⟨h.1, h.2.1, fun cn2 bn2 => ?_⟩
  show applyVSRule cn2 bn2 (applyVSRule cn bn cur.settings) = applyVSRule cn2 bn2 orig.settings
  rw [applyVSRule_applyVSRule]
  exact h.2.2 cn2 bn2

/-- Position-wise shadowing of a whole entry list. -/
def ShadowList (orig cur : List Entry) : Prop :=
  ∀ i : Nat, (orig[i]? = none ∧ cur[i]? = none) ∨
    ∃ o c, orig[i]? = some o ∧ cur[i]? = some c ∧ ShadowEntry o c

theorem shadowList_refl (l : List Entry) : ShadowList l l := by
  intro i
  cases h : l[i]? with
  | none => exact Or.inl ⟨rfl, rfl⟩
  | some e => exact Or.inr ⟨e, e, rfl, rfl, shadowEntry_refl e⟩

theorem shadowList_get (orig cur : List Entry) (j : Nat) (c : Entry)
    (h : ShadowList orig cur) (hc : cur[j]? = some c) :
    ∃ o, orig[j]? = some o ∧ ShadowEntry o c := by
  rcases h j with ⟨h1, h2⟩ | ⟨o, c2, ho, hc2, hsh⟩
  · rw [hc] at h2
    exact Option.noConfusion h2
  · rw [hc] at hc2
    injection hc2 with e
    subst e
    exact ⟨o, ho, hsh⟩

theorem shadowList_set (orig cur : List Entry) (j : Nat) (c c' : Entry)
    (h : ShadowList orig cur) (hc : cur[j]? = some c)
    (hrel : ∀ o, orig[j]? = some o → ShadowEntry o c') :
    ShadowList orig (cur.set j c') := by
  intro i
  by_cases hij : j = i
  · subst hij
    rcases h j with ⟨h1, h2⟩ | ⟨o, c2, ho, hc2, hsh⟩
    · rw [hc] at h2
      exact Option.noConfusion h2
    · refine Or.inr ⟨o, c', ho, ?_, hrel o ho⟩
      rw [List.getElem?_set_self', hc2]
      rfl
  · rcases h i with h1 | ⟨o, c2, ho, hc2, hsh⟩
    · exact Or.inl ⟨h1.1, by rw [List.getElem?_set_ne hij]; exact h1.2⟩
    · exact Or.inr ⟨o, c2, ho, by rw [List.getElem?_set_ne hij]; exact hc2, hsh⟩

/-- The state's entry lists shadow the static table. -/
def ShadowState (p : Platform) (s : RunState) : Prop :=
  ShadowList p.os_arch s.osArch ∧ ShadowList p.compilers s.comps ∧
    ShadowList BUILD_TYPES s.builds

theorem shadowState_init (p : Platform) (fs0 : FS) : ShadowState p (initState p fs0) :=
  ⟨shadowList_refl _, shadowList_refl _, shadowList_refl _⟩

theorem profileName_shadow (o1 c1 o2 c2 o3 c3 : Entry)
    (h1 : ShadowEntry o1 c1) (h2 : ShadowEntry o2 c2) (h3 : ShadowEntry o3 c3) :
    profileName c1 c2 c3 = profileName o1 o2 o3 := by
  simp [profileName, h1.1, h2.1, h3.1]

theorem mergeProfile_shadow (o1 c1 o2 c2 o3 c3 : Entry)
    (h1 : ShadowEntry o1 c1) (h2 : ShadowEntry o2 c2) (h3 : ShadowEntry o3 c3) :
    mergeProfile c1 c2 c3 = mergeProfile o1 o2 o3 := by
  simp only [mergeProfile, List.foldl_cons, List.foldl_nil]
  rw [h2.1, h3.1, h1.2.1, h2.2.1, h3.2.1, h1.2.2, h2.2.2, h3.2.2]

theorem profileContent_shadow (o1 c1 o2 c2 o3 c3 : Entry)
    (h1 : ShadowEntry o1 c1) (h2 : ShadowEntry o2 c2) (h3 : ShadowEntry o3 c3) :
    profileContent c1 c2 c3 = profileContent o1 o2 o3 := by
  simp [profileContent, mergeProfile_shadow o1 c1 o2 c2 o3 c3 h1 h2 h3]

theorem comboData_eq_some (s : RunState) (i j k : Nat) (osa comp bt : Entry)
    (h : comboData s i j k = some (osa, comp, bt)) :
    s.osArch[i]? = some osa ∧ s.comps[j]? = some comp ∧
      s.builds[k]? = some bt := by
  unfold comboData at h
  cases hA : s.osArch[i]? <;> cases hB : s.comps[j]? <;>
    cases hC : s.builds[k]? <;> rw [hA, hB, hC] at h <;> simp_all

theorem comboOutput_shadow (p : Platform) (fs0 : FS) (s : RunState)
    (h : ShadowState p s) (i j k : Nat) :
    comboOutput s i j k = comboOutput (initState p fs0) i j k := by
  obtain ⟨h1, h2, h3⟩ := h
  rcases h1 i with ⟨ho1, hc1⟩ | ⟨o1, c1, ho1, hc1, hs1⟩ <;>
    rcases h2 j with ⟨ho2, hc2⟩ | ⟨o2, c2, ho2, hc2, hs2⟩ <;>
      rcases h3 k with ⟨ho3, hc3⟩ | ⟨o3, c3, ho3, hc3, hs3⟩ <;>
        simp only [comboOutput, comboData, initState, ho1, hc1, ho2, hc2, ho3, hc3,
          Option.some.injEq, Prod.mk.injEq]
  exact ⟨profileName_shadow o1 c1 o2 c2 o3 c3 hs1 hs2 hs3,
    profileContent_shadow o1 c1 o2 c2 o3 c3 hs1 hs2 hs3⟩

theorem shadowState_stepCombo (p : Platform) (s : RunState) (h : ShadowState p s)
    (i j k : Nat) : ShadowState p (stepCombo s i j k) := by
  cases hcd : comboData s i j k with
  | none =>
    unfold stepCombo
    rw [hcd]
    exact h
  | some t =>
    obtain ⟨osa, comp, bt⟩ := t
    obtain ⟨hA, hB, hC⟩ := comboData_eq_some s i j k osa comp bt hcd
    obtain ⟨oA, hoA, hsA⟩ := shadowList_get p.os_arch s.osArch i osa h.1 hA
    obtain ⟨oB, hoB, hsB⟩ := shadowList_get p.compilers s.comps j comp h.2.1 hB
    obtain ⟨oC, hoC, hsC⟩ := shadowList_get BUILD_TYPES s.builds k bt h.2.2 hC
    unfold stepCombo
    rw [hcd]
    refine ⟨?_, ?_, ?_⟩
    · refine shadowList_set p.os_arch s.osArch i osa _ h.1 hA (fun o ho => ?_)
      rw [ho] at hoA
      injection hoA with e
      subst e
      exact shadowEntry_step o osa comp.name bt.name hsA
    · refine shadowList_set p.compilers s.comps j comp _ h.2.1 hB (fun o ho => ?_)
      rw [ho] at hoB
      injection hoB with e
      subst e
      exact shadowEntry_step o comp comp.name bt.name hsB
    · refine shadowList_set BUILD_TYPES s.builds k bt _ h.2.2 hC (fun o ho => ?_)
      rw [ho] at hoC
      injection hoC with e
      subst e
      exact shadowEntry_step o bt comp.name bt.name hsC

theorem shadowState_runCombos (p : Platform) (combos : List (Nat × Nat × Nat)) :
    ∀ s : RunState, ShadowState p s → ShadowState p (runCombos s combos) := by
  induction combos with
  | nil => intro s h; exact h
  | cons c rest ih =>
    intro s h
    exact ih _ (shadowState_stepCombo p s h c.1 c.2.1 c.2.2)

/-! ### Existing files are never rewritten -/

theorem fsLookup_append (fs ext : FS) (p c : String) (h : fsLookup fs p = some c) :
    fsLookup (fs ++ ext) p = some c := by
  unfold fsLookup at h ⊢
  rw [List.find?_append]
  cases hf : fs.find? (fun e => e.1 == p) with
  | none => simp [hf] at h
  | some kv =>
    rw [hf] at h
    simpa using h

theorem fsLookup_stepCombo (s : RunState) (i j k : Nat) (p c : String)
    (h : fsLookup s.fs p = some c) : fsLookup (stepCombo s i j k).fs p = some c := by
  cases hcd : comboData s i j k with
  | none =>
    unfold stepCombo
    rw [hcd]
    exact h
  | some t =>
    obtain ⟨osa, comp, bt⟩ := t
    unfold stepCombo
    rw [hcd]
    by_cases he : fsExists s.fs (profileName osa comp bt) = true
    · simpa [he] using h
    · simpa [he] using
        fsLookup_append s.fs [(profileName osa comp bt, profileContent osa comp bt)] p c h

theorem fsLookup_runCombos (combos : List (Nat × Nat × Nat)) :
    ∀ (s : RunState) (p c : String), fsLookup s.fs p = some c →
      fsLookup (runCombos s combos).fs p = some c := by
  induction combos with
  | nil => intro s p c h; exact h
  | cons cb rest ih =>
    intro s p c h
    exact ih _ _ _ (fsLookup_stepCombo s cb.1 cb.2.1 cb.2.2 p c h)

/-! ### Merge-order helper lemmas -/

theorem mergeProfile_fst_lookup (osa comp bt : Entry) (key : String)
    (h1 : ((applyVSRule comp.name bt.name osa.settings).map Prod.fst).Nodup)
    (h2 : ((applyVSRule comp.name bt.name comp.settings).map Prod.fst).Nodup)
    (h3 : ((applyVSRule comp.name bt.name bt.settings).map Prod.fst).Nodup) :
    dget (mergeProfile osa comp bt).1 key =
      oor (dget (applyVSRule comp.name bt.name bt.settings) key)
        (oor (dget (applyVSRule comp.name bt.name comp.settings) key)
          (dget (applyVSRule comp.name bt.name osa.settings) key)) := by
  simp only [mergeProfile, List.foldl_cons, List.foldl_nil]
  rw [dget_dupdate _ _ _ h3, dget_dupdate _ _ _ h2, dget_dupdate _ _ _ h1,
    dget_nil, oor_none_right]

theorem mergeProfile_snd_lookup (osa comp bt : Entry) (key : String)
    (e1 : (osa.env.map Prod.fst).Nodup) (e2 : (comp.env.map Prod.fst).Nodup)
    (e3 : (bt.env.map Prod.fst).Nodup) :
    dget (mergeProfile osa comp bt).2 key =
      oor (dget bt.env key) (oor (dget comp.env key) (dget osa.env key)) := by
  simp only [mergeProfile, List.foldl_cons, List.foldl_nil]
  rw [dget_dupdate _ _ _ e3, dget_dupdate _ _ _ e2, dget_dupdate _ _ _ e1,
    dget_nil, oor_none_right]

/-! ### Claim theorems -/

/-- C1: for every platform key of the static table, one run into an empty
profiles directory writes exactly |os/arch variants| × |compiler variants|
× |build types| profile files. -/
theorem C1_profile_write_count :
    ∀ pr ∈ HOST_SETTINGS,
      ((runPlatform pr.2 []).fs).length =
        pr.2.os_arch.length * pr.2.compilers.length * BUILD_TYPES.length := by
  decide

theorem C1_profile_write_count_witness :
    ((runPlatform linuxPlatform []).fs).length =
      linuxPlatform.os_arch.length * linuxPlatform.compilers.length *
        BUILD_TYPES.length :=
  C1_profile_write_count ("Linux", linuxPlatform) (by decide)

/-- C2: for every combination of the static table whose compiler settings
map `compiler` to `Visual Studio`, the merged `compiler.runtime` is `MTd`
or `MT` when the variant is `msvc_mt` (debug / non-debug) and `MDd` or `MD`
otherwise; for other compilers the merged `compiler.runtime` is whatever
the compiler entry's settings give. -/
theorem C2_vs_runtime :
    ∀ pr ∈ HOST_SETTINGS, ∀ osa ∈ pr.2.os_arch, ∀ comp ∈ pr.2.compilers,
      ∀ bt ∈ BUILD_TYPES,
      (dget comp.settings "compiler" = some "Visual Studio" →
        dget (mergeProfile osa comp bt).1 "compiler.runtime" =
          some (if comp.name = "msvc_mt"
                then (if bt.name = "debug" then "MTd" else "MT")
                else (if bt.name = "debug" then "MDd" else "MD"))) ∧
      (¬dget comp.settings "compiler" = some "Visual Studio" →
        dget (mergeProfile osa comp bt).1 "compiler.runtime" =
          dget comp.settings "compiler.runtime") := by
  decide

theorem C2_vs_runtime_witness :
    dget (mergeProfile winOsArch msvcEntry debugBT).1 "compiler.runtime" =
      some "MTd" :=
  ((C2_vs_runtime ("Windows", winPlatform) (by decide) winOsArch (by decide)
      msvcEntry (by decide) debugBT (by decide)).1 (by decide)).trans (by decide)

/-- C3: for every combination of the static table and every key, the merged
settings value is the later-overrides-earlier choice over the three
(special-case-adjusted) settings mappings in the order os/arch, compiler,
build type, and the merged environment value is the later-overrides-earlier
choice over the compiler and build-type env mappings in that order. -/
theorem C3_merge_order :
    ∀ pr ∈ HOST_SETTINGS, ∀ osa ∈ pr.2.os_arch, ∀ comp ∈ pr.2.compilers,
      ∀ bt ∈ BUILD_TYPES, ∀ key : String,
      dget (mergeProfile osa comp bt).1 key =
        oor (dget (applyVSRule comp.name bt.name bt.settings) key)
          (oor (dget (applyVSRule comp.name bt.name comp.settings) key)
            (dget (applyVSRule comp.name bt.name osa.settings) key)) ∧
      dget (mergeProfile osa comp bt).2 key =
        oor (dget bt.env key) (dget comp.env key) := by
  intro pr hpr osa hosa comp hcomp bt hbt key
  simp only [HOST_SETTINGS, List.mem_cons, List.not_mem_nil, or_false] at hpr
  rcases hpr with rfl | rfl <;>
    simp only [linuxPlatform, winPlatform, BUILD_TYPES, List.mem_cons,
      List.not_mem_nil, or_false] at hosa hcomp hbt
  · rcases hosa with rfl <;> rcases hcomp with rfl | rfl <;> rcases hbt with rfl | rfl <;>
      refine ⟨mergeProfile_fst_lookup _ _ _ key (by decide) (by decide) (by decide), ?_⟩ <;>
        rw [mergeProfile_snd_lookup _ _ _ key (by decide) (by decide) (by decide)] <;>
          simp [linuxOsArch, dget_nil, oor_none_right]
  · rcases hosa with rfl <;> rcases hcomp with rfl <;> rcases hbt with rfl | rfl <;>
      refine ⟨mergeProfile_fst_lookup _ _ _ key (by decide) (by decide) (by decide), ?_⟩ <;>
        rw [mergeProfile_snd_lookup _ _ _ key (by decide) (by decide) (by decide)] <;>
          simp [winOsArch, dget_nil, oor_none_right]

theorem C3_merge_order_witness :
    dget (mergeProfile linuxOsArch clangEntry debugBT).1 "build_type" =
      oor (dget (applyVSRule clangEntry.name debugBT.name debugBT.settings) "build_type")
        (oor (dget (applyVSRule clangEntry.name debugBT.name clangEntry.settings) "build_type")
          (dget (applyVSRule clangEntry.name debugBT.name linuxOsArch.settings) "build_type")) ∧
    dget (mergeProfile linuxOsArch clangEntry debugBT).2 "build_type" =
      oor (dget debugBT.env "build_type") (dget clangEntry.env "build_type") :=
  C3_merge_order ("Linux", linuxPlatform) (by decide) linuxOsArch (by decide)
    clangEntry (by decide) debugBT (by decide) "build_type"

set_option maxRecDepth 8000 in
/-- C4: generation never changes an existing profile file's content
(whatever platform table the second run uses), and a second identical run
leaves the profiles directory exactly as the first left it. -/
theorem C4_no_overwrite :
    (∀ (p : Platform) (fs : FS) (path c : String),
        fsLookup fs path = some c →
          fsLookup (runPlatform p fs).fs path = some c) ∧
    ∀ pr ∈ HOST_SETTINGS,
      (runPlatform pr.2 (runPlatform pr.2 []).fs).fs = (runPlatform pr.2 []).fs := by
  constructor
  · intro p fs path c h
    exact fsLookup_runCombos (allCombos p) (initState p fs) path c h
  · decide

theorem C4_no_overwrite_witness :
    fsLookup (runPlatform winPlatform
        [("windows-x86_64-msvc_mt-debug", "preexisting content")]).fs
      "windows-x86_64-msvc_mt-debug" = some "preexisting content" ∧
    (runPlatform winPlatform (runPlatform winPlatform []).fs).fs =
      (runPlatform winPlatform []).fs :=
  ⟨C4_no_overwrite.1 winPlatform [("windows-x86_64-msvc_mt-debug", "preexisting content")]
      "windows-x86_64-msvc_mt-debug" "preexisting content" (by decide),
   C4_no_overwrite.2 ("Windows", winPlatform) (by decide)⟩

/-- C5: the remote-add call is made exactly when no remote named `artyjay`
is in the client's remote list; when one is present no state-changing call
happens. -/
theorem C5_remote_registration (remotes : List Remote) :
    (registerRemoteCalls remotes = [ConanCall.remoteAdd "artyjay" REMOTE_URL] ↔
      ∀ r ∈ remotes, r.name ≠ "artyjay") ∧
    ((∃ r ∈ remotes, r.name = "artyjay") → registerRemoteCalls remotes = []) := by
  by_cases h : ∀ r ∈ remotes, r.name ≠ "artyjay"
  · have hfil : remotes.filter (fun x => x.name == REMOTE) = [] :=
      List.filter_eq_nil.mpr (fun r hr => by simpa [REMOTE] using h r hr)
    constructor
    · constructor
      · intro _
        exact h
      · intro _
        simpa [registerRemoteCalls, hfil, REMOTE] using h
    · intro hex
      obtain ⟨r, hr, hname⟩ := hex
      exact absurd hname (h r hr)
  · push_neg at h
    obtain ⟨r, hr, hname⟩ := h
    have hmem : r ∈ remotes.filter (fun x => x.name == REMOTE) := by
      simp [List.mem_filter, hr, REMOTE, hname]
    have hlen : (remotes.filter (fun x => x.name == REMOTE)).length ≠ 0 := by
      intro hh
      rw [List.length_eq_zero.mp hh] at hmem
      exact List.not_mem_nil r hmem
    have hcond : ¬((remotes.filter (fun x => x.name == REMOTE)).length == 0) = true := by
      simpa using hlen
    have hreg : registerRemoteCalls remotes = [] := by
      simp only [registerRemoteCalls]
      rw [if_neg hcond]
    refine ⟨⟨fun hc => ?_, fun hall => absurd hname (hall r hr)⟩, fun _ => hreg⟩
    rw [hreg] at hc
    exact List.noConfusion hc

theorem C5_remote_registration_witness :
    registerRemoteCalls [{ name := "artyjay", url := REMOTE_URL }] = [] :=
  (C5_remote_registration [{ name := "artyjay", url := REMOTE_URL }]).2
    ⟨{ name := "artyjay", url := REMOTE_URL }, by decide, by decide⟩

/-- C6: a missing `--platform` value gives a failing table lookup, and any
invocation whose platform value fails the table lookup exits non-zero
having written no profile file and made no package-manager call. -/
theorem C6_platform_flag_required :
    lookupPlatform none = none ∧
    ∀ (arg : Option String) (remotes : List Remote) (s0 : SysState),
      lookupPlatform arg = none →
        (MainModel arg remotes s0).ok = false ∧
        (MainModel arg remotes s0).state.fs = s0.fs ∧
        (MainModel arg remotes s0).state.calls = s0.calls := by
  refine ⟨rfl, fun arg remotes s0 h => ?_⟩
  simp [MainModel, h]

theorem C6_platform_flag_required_witness :
    (MainModel (some "Darwin") [] { profilesDirExists := false, fs := [], calls := [] }).ok
        = false ∧
    (MainModel (some "Darwin") [] { profilesDirExists := false, fs := [], calls := [] }).state.fs
        = [] ∧
    (MainModel (some "Darwin") [] { profilesDirExists := false, fs := [], calls := [] }).state.calls
        = [] :=
  C6_platform_flag_required.2 (some "Darwin") []
    { profilesDirExists := false, fs := [], calls := [] } (by decide)

/-- C7: each written file's name is `<os/arch>-<compiler>-<build type>` for
its combination, in product order, and the names of one run are pairwise
distinct. -/
theorem C7_profile_names :
    ∀ pr ∈ HOST_SETTINGS,
      (runPlatform pr.2 []).fs.map Prod.fst =
        (comboList pr.2).map
          (fun t => t.1.name ++ "-" ++ t.2.1.name ++ "-" ++ t.2.2.name) ∧
      ((runPlatform pr.2 []).fs.map Prod.fst).Nodup := by
  decide

theorem C7_profile_names_witness :
    (runPlatform winPlatform []).fs.map Prod.fst =
      (comboList winPlatform).map
        (fun t => t.1.name ++ "-" ++ t.2.1.name ++ "-" ++ t.2.2.name) ∧
    ((runPlatform winPlatform []).fs.map Prod.fst).Nodup :=
  C7_profile_names ("Windows", winPlatform) (by decide)

set_option maxRecDepth 8000 in
/-- C8: every written profile's content is the four-section template
`[settings]`, `[options]`, `[build_requires]`, `[env]` in that order, with
newline-joined `key=value` lines for the merged settings and environment
and nothing under `[options]` or `[build_requires]`. -/
theorem C8_profile_template :
    ∀ pr ∈ HOST_SETTINGS,
      (runPlatform pr.2 []).fs =
        (comboList pr.2).map (fun t =>
          (profileName t.1 t.2.1 t.2.2,
           "[settings]\n" ++ values_string (mergeProfile t.1 t.2.1 t.2.2).1 ++
             "\n[options]\n[build_requires]\n[env]\n" ++
             values_string (mergeProfile t.1 t.2.1 t.2.2).2 ++ "\n")) := by
  decide

theorem C8_profile_template_witness :
    (runPlatform winPlatform []).fs =
      (comboList winPlatform).map (fun t =>
        (profileName t.1 t.2.1 t.2.2,
         "[settings]\n" ++ values_string (mergeProfile t.1 t.2.1 t.2.2).1 ++
           "\n[options]\n[build_requires]\n[env]\n" ++
           values_string (mergeProfile t.1 t.2.1 t.2.2).2 ++ "\n")) :=
  C8_profile_template ("Windows", winPlatform) (by decide)

/-- C9: the profiles directory is created before the platform lookup, so a
run with an unknown (or missing) platform name still leaves the directory
existing while writing no file and making no package-manager call. -/
theorem C9_dir_created_before_lookup :
    ∀ (arg : Option String) (remotes : List Remote) (s0 : SysState),
      lookupPlatform arg = none →
        (MainModel arg remotes s0).state.profilesDirExists = true ∧
        (MainModel arg remotes s0).state.fs = s0.fs ∧
        (MainModel arg remotes s0).state.calls = s0.calls := by
  intro arg remotes s0 h
  simp [MainModel, h]

theorem C9_dir_created_before_lookup_witness :
    (MainModel none [] { profilesDirExists := false, fs := [], calls := [] }).state.profilesDirExists
        = true ∧
    (MainModel none [] { profilesDirExists := false, fs := [], calls := [] }).state.fs
        = [] ∧
    (MainModel none [] { profilesDirExists := false, fs := [], calls := [] }).state.calls
        = [] :=
  C9_dir_created_before_lookup none []
    { profilesDirExists := false, fs := [], calls := [] } rfl

set_option maxRecDepth 8000 in
/-- C10: the special case writes `compiler.runtime` through the alias into
the table entry held in the loop state (after the first Windows combination
the stored `msvc_mt` entry carries `MTd`, not the original `MT`), yet the
profile computed for any combination equals the one computed from the
untouched table, whatever combinations were processed before, in whatever
order. -/
theorem C10_table_aliased_yet_order_independent :
    ((stepCombo (initState winPlatform []) 0 0 0).comps[0]? =
        some { name := "msvc_mt",
               settings := [("compiler", "Visual Studio"), ("compiler.version", "16"),
                            ("compiler.runtime", "MTd")],
               env := [] } ∧
      winPlatform.compilers[0]? = some msvcEntry ∧
      msvcEntry.settings = [("compiler", "Visual Studio"), ("compiler.version", "16"),
                            ("compiler.runtime", "MT")]) ∧
    ∀ (p : Platform) (fs0 : FS) (combos : List (Nat × Nat × Nat)) (i j k : Nat),
      comboOutput (runCombos (initState p fs0) combos) i j k =
        comboOutput (initState p fs0) i j k := by
  constructor
  · exact ⟨by decide, by decide, by decide⟩
  · intro p fs0 combos i j k
    exact comboOutput_shadow p fs0 _
      (shadowState_runCombos p combos _ (shadowState_init p fs0)) i j k

end SetupConan
